import Mathlib

/-!
Verification of the MICE binary snapshot serialization layer (src/utils.py).

The embedding models the CPython behaviour of the source on its deployment
platform (CPython on a little-endian LP64 host, where the native struct
formats `i`, `f`, `d` are 4-, 4- and 8-byte little-endian and the header
struct `iiiiii dddddd d d i i iiiiii i i dddd ii c*88` has no alignment
padding, giving exactly 256 bytes).

Bytes are modelled as `Nat` values below 256; multi-byte fields are packed
least-significant byte first.  Python exceptions raised by the serialization
code are modelled by the `PyError` type; each constructor records the concrete
exception the source raises (struct.error, IndexError, ValueError, KeyError).
-/

/-- Concrete failures raised by the serialization layer of `src/utils.py`.
The spec's error taxonomy maps onto these: `InvalidHeaderConfiguration` is the
`struct.error` from a pack-count mismatch, `MissingGasArrays` is the
`IndexError` raised while partitioning `data_list`, and `UnsupportedFormat` is
the `ValueError` raised for an unknown `file_format`. -/
inductive PyError where
  /-- Python `IndexError: list index out of range` at index `i`. -/
  | indexError (i : Nat)
  /-- Python `ValueError: {fmt} is not a supported file format.` -/
  | valueError (fmt : String)
  /-- Python `struct.error: pack expected {n} items` (argument-count mismatch). -/
  | structPackCountMismatch (n : Nat)
  /-- Python `struct.error: argument out of range` for format char `i`. -/
  | structIntOutOfRange
  /-- Python `ValueError: too many values to unpack` / `not enough values` . -/
  | valueErrorUnpack
  /-- Python `KeyError` on a dictionary lookup. -/
  | keyError
  /-- Python `SyntaxError` raised when the HEADER section is absent. -/
  | errMissingHeaderSection
  /-- Python `SyntaxError` raised when required header keys are absent. -/
  | errMissingHeaderKeys
  deriving DecidableEq, Repr

/-- Little-endian packing: `packLE w v` is the `w`-byte encoding of `v % 256^w`,
least-significant byte first. -/
def packLE : Nat → Nat → List Nat
  | 0, _ => []
  | w + 1, v => (v % 256) :: packLE w (v / 256)

/-- Little-endian decoding: first byte is least significant. -/
def bytesToNatLE : List Nat → Nat
  | [] => 0
  | b :: rest => b + 256 * bytesToNatLE rest

theorem packLE_length (w v : Nat) : (packLE w v).length = w := by
  induction w generalizing v with
  | zero => rfl
  | succ w ih => simp [packLE, ih]

theorem bytesToNatLE_packLE (w v : Nat) : bytesToNatLE (packLE w v) = v % 256 ^ w := by
  induction w generalizing v with
  | zero => simp [packLE, bytesToNatLE, Nat.mod_one]
  | succ w ih =>
    simp only [packLE, bytesToNatLE, ih]
    rw [pow_succ, mul_comm (256 ^ w) 256, Nat.mod_mul]

theorem packLE_getD (w v i : Nat) (h : i < w) :
    (packLE w v).getD i 0 = v / 256 ^ i % 256 := by
  induction w generalizing v i with
  | zero => omega
  | succ w ih =>
    cases i with
    | zero => simp [packLE]
    | succ i =>
      simp only [packLE, List.getD_cons_succ]
      rw [ih (v / 256) i (by omega), Nat.div_div_eq_div_mul, pow_succ, mul_comm (256 ^ i) 256]

/-!
Header encoder: embedding of `read_header` (src/utils.py lines 102-182).

`read_header` builds the list `h_data` (six particle counts as ints, six
mass-table doubles 0.0, time 0.0, redshift 0.0, flag_sfr 0, flag_feedback 0,
the six counts again as the per-type totals, flag_cooling 0, num_files 1,
box_size 0.0, omega0 0.0, omega_lambda 0.0, hubble_param 1.0, flag_age 0,
flag_metals 0, and 88 zero filler bytes) and packs it with the struct format
`iiiiii dddddd d d i i iiiiii i i dddd ii c*88` (118 items).  CPython's
`struct.pack` first checks that the argument count equals the format's item
count and then converts the items one by one, raising `struct.error` when an
`i` value does not fit a signed 32-bit integer.
-/

/-- One item of the header struct: an `i` int, a `d` double (represented by
its IEEE-754 bit pattern), or a `c` single byte. -/
inductive HVal where
  | i (v : Int)
  | d (bits : Nat)
  | c (b : Nat)
  deriving DecidableEq, Repr

/-- IEEE-754 bit pattern of the double 1.0 (the only non-zero double the
header ever packs). -/
def doubleBitsOne : Nat := 0x3FF0000000000000

/-- Pack a single struct item as CPython does: `i` is a signed 32-bit
little-endian int (raising `struct.error` when out of range), `d` is the
8-byte little-endian bit pattern, `c` a single byte. -/
def packHVal : HVal → Except PyError (List Nat)
  | .i v =>
    if v < -(2 ^ 31) ∨ (2 ^ 31 : Int) ≤ v then .error .structIntOutOfRange
    else .ok (packLE 4 (v % (2 ^ 32 : Int)).toNat)
  | .d bits => .ok (packLE 8 bits)
  | .c b => .ok [b % 256]

/-- Pack a list of struct items left to right, failing at the first item
CPython's converter would reject. -/
def packItems : List HVal → Except PyError (List Nat)
  | [] => .ok []
  | it :: rest => do
    let b ← packHVal it
    let bs ← packItems rest
    .ok (b ++ bs)

/-- Constant `h_data` items between the two count lists: six mass-table
doubles 0.0, time 0.0, redshift 0.0, flag_sfr 0, flag_feedback 0
(src/utils.py lines 157-162). -/
def headerMidItems : List HVal :=
  List.replicate 6 (HVal.d 0) ++ [HVal.d 0, HVal.d 0, HVal.i 0, HVal.i 0]

/-- Constant `h_data` items after the per-type totals: flag_cooling 0,
num_files 1, box_size 0.0, omega0 0.0, omega_lambda 0.0, hubble_param 1.0,
flag_age 0, flag_metals 0, 88 zero filler bytes (src/utils.py lines 165-174). -/
def headerTailItems : List HVal :=
  [HVal.i 0, HVal.i 1, HVal.d 0, HVal.d 0, HVal.d 0, HVal.d doubleBitsOne,
    HVal.i 0, HVal.i 0] ++ List.replicate 88 (HVal.c 0)

/-- The `h_data` list built by `read_header` (src/utils.py lines 155-174),
in source order. -/
def headerItems (nPart : List Int) : List HVal :=
  nPart.map HVal.i ++ headerMidItems ++ nPart.map HVal.i ++ headerTailItems

/-- Number of items of the header struct format
`iiiiii dddddd d d i i iiiiii i i dddd ii c*88`. -/
def headerStructItemCount : Nat := 118

/-- Embedding of `read_header`: pack `h_data` with the 118-item header
struct.  `struct.pack` checks the argument count against the format first
(raising `struct.error: pack expected 118 items` on mismatch) and then
converts items in order. -/
def read_header (nPart : List Int) : Except PyError (List Nat) :=
  if (headerItems nPart).length ≠ headerStructItemCount then
    .error (.structPackCountMismatch headerStructItemCount)
  else packItems (headerItems nPart)

theorem headerItems_length (nPart : List Int) :
    (headerItems nPart).length = 2 * nPart.length + 106 := by
  simp [headerItems, headerMidItems, headerTailItems]
  omega

theorem packItems_append (l₁ l₂ : List HVal) :
    packItems (l₁ ++ l₂) =
      (packItems l₁).bind fun b₁ => (packItems l₂).map fun b₂ => b₁ ++ b₂ := by
  induction l₁ with
  | nil =>
    cases h : packItems l₂ with
    | error e => simp [packItems, Except.bind, Except.map, h]
    | ok bs => simp [packItems, Except.bind, Except.map, h]
  | cons it rest ih =>
    simp only [List.cons_append, packItems]
    cases packHVal it with
    | error e => rfl
    | ok b =>
      show ((packItems (rest ++ l₂)).bind fun bs => Except.ok (b ++ bs)) =
        (((packItems rest).bind fun bs => Except.ok (b ++ bs)).bind
          fun b₁ => (packItems l₂).map fun b₂ => b₁ ++ b₂)
      rw [ih]
      cases packItems rest with
      | error e => rfl
      | ok bs =>
        cases packItems l₂ with
        | error e => rfl
        | ok bs₂ => simp [Except.bind, Except.map, List.append_assoc]

/-- The 24 bytes the six particle counts pack to. -/
def countsBytes (nPart : List Int) : List Nat :=
  (nPart.map fun v => packLE 4 (v % (2 ^ 32 : Int)).toNat).flatten

theorem countsBytes_length (nPart : List Int) :
    (countsBytes nPart).length = 4 * nPart.length := by
  induction nPart with
  | nil => rfl
  | cons v rest ih =>
    have hc : countsBytes (v :: rest) =
        packLE 4 (v % (2 ^ 32 : Int)).toNat ++ countsBytes rest := rfl
    rw [hc, List.length_append, packLE_length, ih, List.length_cons]
    omega

theorem packItems_counts (nPart : List Int)
    (h : ∀ v ∈ nPart, 0 ≤ v ∧ v < 2 ^ 31) :
    packItems (nPart.map HVal.i) = .ok (countsBytes nPart) := by
  induction nPart with
  | nil => rfl
  | cons v rest ih =>
    have hv := h v (by simp)
    have hrest : ∀ x ∈ rest, 0 ≤ x ∧ x < 2 ^ 31 := fun x hx => h x (by simp [hx])
    simp only [List.map_cons, packItems, packHVal]
    rw [if_neg (by omega), ih hrest]
    rfl

/-- Bytes the mid items pack to: all zeros (six 0.0 doubles, two 0.0 doubles,
two 0 ints = 72 zero bytes). -/
def headerMidBytes : List Nat := List.replicate 72 0

/-- Bytes the tail items pack to: flag_cooling 0, num_files 1, three 0.0
doubles, hubble_param 1.0, two 0 flags and 88 zero filler bytes. -/
def headerTailBytes : List Nat :=
  packLE 4 0 ++ packLE 4 1 ++ List.replicate 24 0 ++ packLE 8 doubleBitsOne
    ++ List.replicate 8 0 ++ List.replicate 88 0

theorem packItems_headerMid : packItems headerMidItems = .ok headerMidBytes := by
  rfl

set_option maxRecDepth 4000 in
theorem packItems_headerTail : packItems headerTailItems = .ok headerTailBytes := by
  rfl

theorem headerMidBytes_length : headerMidBytes.length = 72 := by rfl

theorem headerTailBytes_length : headerTailBytes.length = 136 := by rfl

/-- Closed form of a successful `read_header` run: the 256 output bytes are
the packed counts, 72 constant bytes, the packed counts again (the per-type
totals) and the 136 constant tail bytes. -/
theorem read_header_ok (np : List Int) (h6 : np.length = 6)
    (hr : ∀ v ∈ np, 0 ≤ v ∧ v < 2 ^ 31) :
    read_header np =
      .ok (countsBytes np ++ (headerMidBytes ++ (countsBytes np ++ headerTailBytes))) := by
  unfold read_header
  rw [if_neg (by rw [headerItems_length, h6]; decide)]
  simp [headerItems, packItems_append, packItems_counts np hr, packItems_headerMid,
    packItems_headerTail, Except.bind, Except.map, List.append_assoc]

/-- Contiguous slice of a byte list: `len` bytes starting at offset `off`. -/
def byteSlice (bs : List Nat) (off len : Nat) : List Nat := (bs.drop off).take len

/-- Decode the 4-byte little-endian field at offset `off`. -/
def decodeU32 (bs : List Nat) (off : Nat) : Nat := bytesToNatLE (byteSlice bs off 4)

/-- Decode the 8-byte little-endian field at offset `off`. -/
def decodeU64 (bs : List Nat) (off : Nat) : Nat := bytesToNatLE (byteSlice bs off 8)

/-- C4 (amended): for every particle-count sequence of exactly 6 non-negative
integers each below `2 ^ 31` (the signed 32-bit range the `i` format accepts),
`read_header` returns a byte sequence of exactly 256 bytes. -/
theorem c4_header_is_256_bytes (np : List Int) (h6 : np.length = 6)
    (hr : ∀ v ∈ np, 0 ≤ v ∧ v < 2 ^ 31) :
    ∃ bs, read_header np = .ok bs ∧ bs.length = 256 := by
  refine ⟨_, read_header_ok np h6 hr, ?_⟩
  rw [List.length_append, List.length_append, List.length_append,
    countsBytes_length, h6, headerMidBytes_length, headerTailBytes_length]

/-- C4 witness: the header for counts `[1, 2, 3, 4, 5, 6]` is 256 bytes. -/
theorem c4_header_is_256_bytes_witness :
    ∃ bs, read_header [1, 2, 3, 4, 5, 6] = .ok bs ∧ bs.length = 256 :=
  c4_header_is_256_bytes [1, 2, 3, 4, 5, 6] (by decide) (by decide)

/-- C4 counterexample: the claim as stated fails for a 6-element sequence of
non-negative integers: a count of `2 ^ 31` does not fit the signed 32-bit `i`
format, so `struct.pack` raises `struct.error` and no 256-byte header is
returned. -/
theorem c4_counterexample :
    read_header [(2 : Int) ^ 31, 0, 0, 0, 0, 0] = .error .structIntOutOfRange := by
  rfl

/-- C8: for every particle-count sequence that does not have exactly 6
elements, `read_header` fails (with the `struct.error` from the 118-item
pack-count check, the concrete form of `InvalidHeaderConfiguration`); the
failure happens while packing, before any byte reaches a sink. -/
theorem c8_header_length_check (np : List Int) (h : np.length ≠ 6) :
    read_header np = .error (.structPackCountMismatch headerStructItemCount) := by
  unfold read_header
  rw [if_pos]
  rw [headerItems_length, headerStructItemCount]
  omega

/-- C8 witness: a 2-element count sequence is rejected. -/
theorem c8_header_length_check_witness :
    read_header [1, 2] = .error (.structPackCountMismatch 118) :=
  c8_header_length_check [1, 2] (by decide)

/-- C10: for every 6-element particle-count sequence (counts within the
signed 32-bit range the pack accepts), the 256-byte header is determined by
the counts alone — `read_header` takes no other input — and carries the
constant metadata: zero mass table, zero time and redshift, zero
star-formation/feedback/cooling/age/metals flags, file count 1, zero box size
and density parameters, Hubble parameter 1.0 (IEEE-754 bits), per-type totals
equal to the per-type counts, and 88 zero padding bytes. -/
theorem c10_header_fields (np : List Int) (h6 : np.length = 6)
    (hr : ∀ v ∈ np, 0 ≤ v ∧ v < 2 ^ 31) :
    ∃ bs, read_header np = .ok bs ∧ bs.length = 256
      ∧ byteSlice bs 24 48 = List.replicate 48 0
      ∧ byteSlice bs 72 8 = List.replicate 8 0
      ∧ byteSlice bs 80 8 = List.replicate 8 0
      ∧ decodeU32 bs 88 = 0 ∧ decodeU32 bs 92 = 0
      ∧ byteSlice bs 96 24 = byteSlice bs 0 24
      ∧ decodeU32 bs 120 = 0 ∧ decodeU32 bs 124 = 1
      ∧ byteSlice bs 128 24 = List.replicate 24 0
      ∧ decodeU64 bs 152 = doubleBitsOne
      ∧ decodeU32 bs 160 = 0 ∧ decodeU32 bs 164 = 0
      ∧ byteSlice bs 168 88 = List.replicate 88 0 := by
  refine ⟨_, read_header_ok np h6 hr, ?_⟩
  set cb := countsBytes np with hcb
  have h24 : cb.length = 24 := by rw [hcb, countsBytes_length, h6]
  set bs := cb ++ (headerMidBytes ++ (cb ++ headerTailBytes)) with hbs
  have hd24 : bs.drop 24 = headerMidBytes ++ (cb ++ headerTailBytes) := by
    rw [hbs, ← h24, List.drop_left]
  have hd96 : bs.drop 96 = cb ++ headerTailBytes := by
    have : bs.drop 96 = (bs.drop 24).drop 72 := by rw [List.drop_drop]
    rw [this, hd24]
    have hm : headerMidBytes.length = 72 := rfl
    rw [← hm, List.drop_left]
  have hd120 : bs.drop 120 = headerTailBytes := by
    have : bs.drop 120 = (bs.drop 96).drop 24 := by rw [List.drop_drop]
    rw [this, hd96, ← h24, List.drop_left]
  refine ⟨?_, ?_, ?_, ?_, ?_, ?_, ?_, ?_, ?_, ?_, ?_, ?_, ?_, ?_⟩
  · rw [List.length_append, List.length_append, List.length_append,
      h24, headerMidBytes_length, headerTailBytes_length]
  · show (bs.drop 24).take 48 = _
    rw [hd24, headerMidBytes]
    rw [List.take_append_eq_append_take, List.take_replicate]
    simp
  · show (bs.drop 72).take 8 = _
    have : bs.drop 72 = (bs.drop 24).drop 48 := by rw [List.drop_drop]
    rw [this, hd24, headerMidBytes, List.drop_append_eq_append_drop,
      List.drop_replicate, List.take_append_eq_append_take, List.take_replicate]
    simp
  · show (bs.drop 80).take 8 = _
    have : bs.drop 80 = (bs.drop 24).drop 56 := by rw [List.drop_drop]
    rw [this, hd24, headerMidBytes, List.drop_append_eq_append_drop,
      List.drop_replicate, List.take_append_eq_append_take, List.take_replicate]
    simp
  · show bytesToNatLE ((bs.drop 88).take 4) = 0
    have : bs.drop 88 = (bs.drop 24).drop 64 := by rw [List.drop_drop]
    rw [this, hd24, headerMidBytes, List.drop_append_eq_append_drop,
      List.drop_replicate, List.take_append_eq_append_take, List.take_replicate]
    simp [bytesToNatLE]
  · show bytesToNatLE ((bs.drop 92).take 4) = 0
    have : bs.drop 92 = (bs.drop 24).drop 68 := by rw [List.drop_drop]
    rw [this, hd24, headerMidBytes, List.drop_append_eq_append_drop,
      List.drop_replicate, List.take_append_eq_append_take, List.take_replicate]
    simp [bytesToNatLE]
  · show (bs.drop 96).take 24 = (bs.drop 0).take 24
    rw [hd96, List.drop_zero, hbs, ← h24, List.take_left, List.take_left]
  · show bytesToNatLE ((bs.drop 120).take 4) = 0
    rw [hd120]; rfl
  · show bytesToNatLE ((bs.drop 124).take 4) = 1
    have : bs.drop 124 = (bs.drop 120).drop 4 := by rw [List.drop_drop]
    rw [this, hd120]; rfl
  · show (bs.drop 128).take 24 = _
    have : bs.drop 128 = (bs.drop 120).drop 8 := by rw [List.drop_drop]
    rw [this, hd120]; rfl
  · show bytesToNatLE ((bs.drop 152).take 8) = doubleBitsOne
    have : bs.drop 152 = (bs.drop 120).drop 32 := by rw [List.drop_drop]
    rw [this, hd120]; rfl
  · show bytesToNatLE ((bs.drop 160).take 4) = 0
    have : bs.drop 160 = (bs.drop 120).drop 40 := by rw [List.drop_drop]
    rw [this, hd120]; rfl
  · show bytesToNatLE ((bs.drop 164).take 4) = 0
    have : bs.drop 164 = (bs.drop 120).drop 44 := by rw [List.drop_drop]
    rw [this, hd120]; rfl
  · show (bs.drop 168).take 88 = _
    have : bs.drop 168 = (bs.drop 120).drop 48 := by rw [List.drop_drop]
    rw [this, hd120]; rfl

/-- C10 witness: instantiation at counts `[1, 2, 3, 4, 5, 6]`. -/
theorem c10_header_fields_witness :
    ∃ bs, read_header [1, 2, 3, 4, 5, 6] = .ok bs ∧ bs.length = 256
      ∧ byteSlice bs 24 48 = List.replicate 48 0
      ∧ byteSlice bs 72 8 = List.replicate 8 0
      ∧ byteSlice bs 80 8 = List.replicate 8 0
      ∧ decodeU32 bs 88 = 0 ∧ decodeU32 bs 92 = 0
      ∧ byteSlice bs 96 24 = byteSlice bs 0 24
      ∧ decodeU32 bs 120 = 0 ∧ decodeU32 bs 124 = 1
      ∧ byteSlice bs 128 24 = List.replicate 24 0
      ∧ decodeU64 bs 152 = doubleBitsOne
      ∧ decodeU32 bs 160 = 0 ∧ decodeU32 bs 164 = 0
      ∧ byteSlice bs 168 88 = List.replicate 88 0 :=
  c10_header_fields [1, 2, 3, 4, 5, 6] (by decide) (by decide)

/-!
Block writer: embedding of `write_dummy` (src/utils.py lines 185-201) and
`write_block` (lines 204-242).

A call writes bytes to the sink sequentially and may raise mid-call, leaving
the bytes already written; results are therefore pairs of the bytes appended
and an optional raised error.  `write_dummy` packs each value of its list
with the native 4-byte `i` format.  `write_block` writes a dummy 8, the
4-character name (`struct.pack('c'*4, ...)` raises when the name does not
split into exactly 4 characters), the dummies `nbytes + 8`, `8`, `nbytes`,
the payload, and a trailing dummy `nbytes`, where `nbytes` is 256 for the
`HEAD` block and `4 * len(block_data)` otherwise.

Payload elements (float32 via format `f`, int32 via format `i`) are modelled
by their 4-byte encodings' bit patterns, each packed little-endian; the
`data_type` argument selects the format character but either way every
element occupies 4 bytes.
-/

/-- Embedding of `write_dummy`: pack each value with the 4-byte `i` format
and append; a value outside the signed 32-bit range raises `struct.error`
after the earlier values were already written. -/
def write_dummy : List Int → List Nat × Option PyError
  | [] => ([], none)
  | v :: rest =>
    match packHVal (.i v) with
    | .error e => ([], some e)
    | .ok b =>
      let r := write_dummy rest
      (b ++ r.1, r.2)

/-- Payload handed to `write_block`: the header branch writes a pre-encoded
byte string verbatim, every other block packs a list of 4-byte elements. -/
inductive BlockData where
  | raw (bytes : List Nat)
  | elems (vals : List Nat)
  deriving DecidableEq, Repr

/-- `len(block_data)`: length of the byte string or element count. -/
def blockDataLen : BlockData → Nat
  | .raw bytes => bytes.length
  | .elems vals => vals.length

/-- Bytes the payload write emits: the raw bytes, or each element packed as
a 4-byte little-endian field. -/
def payloadBytes : BlockData → List Nat
  | .raw bytes => bytes
  | .elems vals => (vals.map fun e => packLE 4 (e % 2 ^ 32)).flatten

/-- Byte values of a block name's characters. -/
def nameBytes (s : String) : List Nat := s.toList.map Char.toNat

/-- The `nbytes` computed by `write_block` (src/utils.py lines 230-235):
256 for the header block, otherwise 4 bytes per element. -/
def nbytesOf (blockName : String) (bd : BlockData) : Nat :=
  if blockName = "HEAD" then 256 else 4 * blockDataLen bd

/-- Embedding of `write_block`.  `dataType` is the `data_type` argument
(format character `f` or `i`, `none` for the header); it does not change the
emitted byte count, since both formats occupy 4 bytes. -/
def write_block (bd : BlockData) (dataType : Option Char) (blockName : String) :
    List Nat × Option PyError :=
  let d₁ := write_dummy [8]
  match d₁.2 with
  | some e => (d₁.1, some e)
  | none =>
    if blockName.toList.length ≠ 4 then
      (d₁.1, some (.structPackCountMismatch 4))
    else
      let _ := dataType
      let nb := nbytesOf blockName bd
      let d₂ := write_dummy [(nb : Int) + 8, 8, (nb : Int)]
      match d₂.2 with
      | some e => (d₁.1 ++ nameBytes blockName ++ d₂.1, some e)
      | none =>
        let d₃ := write_dummy [(nb : Int)]
        (d₁.1 ++ nameBytes blockName ++ d₂.1 ++ payloadBytes bd ++ d₃.1, d₃.2)

theorem packHVal_i_ok (v : Int) (h₀ : 0 ≤ v) (h₁ : v < 2 ^ 31) :
    packHVal (.i v) = .ok (packLE 4 v.toNat) := by
  simp only [packHVal]
  rw [if_neg (by omega),
    show v % (2 ^ 32 : Int) = v from Int.emod_eq_of_lt h₀ (by omega)]

theorem write_dummy_ok (v : Int) (h₀ : 0 ≤ v) (h₁ : v < 2 ^ 31) :
    write_dummy [v] = (packLE 4 v.toNat, none) := by
  simp [write_dummy, packHVal_i_ok v h₀ h₁]

theorem write_dummy_triple (a b c : Int)
    (ha : 0 ≤ a ∧ a < 2 ^ 31) (hb : 0 ≤ b ∧ b < 2 ^ 31) (hc : 0 ≤ c ∧ c < 2 ^ 31) :
    write_dummy [a, b, c] =
      (packLE 4 a.toNat ++ packLE 4 b.toNat ++ packLE 4 c.toNat, none) := by
  simp [write_dummy, packHVal_i_ok a ha.1 ha.2, packHVal_i_ok b hb.1 hb.2,
    packHVal_i_ok c hc.1 hc.2, List.append_assoc]

theorem payloadBytes_elems_length (vals : List Nat) :
    (payloadBytes (.elems vals)).length = 4 * vals.length := by
  induction vals with
  | nil => rfl
  | cons e rest ih =>
    have hc : payloadBytes (.elems (e :: rest)) =
        packLE 4 (e % 2 ^ 32) ++ payloadBytes (.elems rest) := rfl
    rw [hc, List.length_append, packLE_length, ih, List.length_cons]
    omega

theorem nameBytes_length (s : String) : (nameBytes s).length = s.toList.length := by
  simp [nameBytes]

/-- Normal form of a successful `write_block` call: the six framing segments
around the payload, in source order, with no error raised. -/
theorem write_block_eq (bd : BlockData) (dt : Option Char) (name : String)
    (hn : name.toList.length = 4) (hnb : nbytesOf name bd + 8 < 2 ^ 31) :
    write_block bd dt name =
      (packLE 4 8 ++ nameBytes name
        ++ (packLE 4 (nbytesOf name bd + 8) ++ packLE 4 8 ++ packLE 4 (nbytesOf name bd))
        ++ payloadBytes bd ++ packLE 4 (nbytesOf name bd), none) := by
  have h8 : write_dummy [8] = (packLE 4 8, none) := write_dummy_ok 8 (by omega) (by omega)
  have hcast : ((nbytesOf name bd : Int) + 8) = ((nbytesOf name bd + 8 : Nat) : Int) := by
    push_cast
    ring
  have hd2 : write_dummy [(nbytesOf name bd : Int) + 8, 8, (nbytesOf name bd : Int)] =
      (packLE 4 (nbytesOf name bd + 8) ++ packLE 4 8 ++ packLE 4 (nbytesOf name bd), none) := by
    have := write_dummy_triple ((nbytesOf name bd : Int) + 8) 8 (nbytesOf name bd : Int)
      ⟨by omega, by omega⟩ ⟨by omega, by omega⟩
      ⟨Int.natCast_nonneg _, by exact_mod_cast (by omega : nbytesOf name bd < 2 ^ 31)⟩
    rw [this, hcast, Int.toNat_natCast, Int.toNat_natCast]
    rfl
  have hd3 : write_dummy [(nbytesOf name bd : Int)] = (packLE 4 (nbytesOf name bd), none) := by
    have := write_dummy_ok (nbytesOf name bd : Int) (Int.natCast_nonneg _)
      (by exact_mod_cast (by omega : nbytesOf name bd < 2 ^ 31))
    rw [this, Int.toNat_natCast]
  simp only [write_block, h8, hd2, hd3, hn]
  simp [List.append_assoc]

/-- C2: every successfully written block (4-character name, `nbytes + 8` in
the signed 32-bit range) appends exactly: a 4-byte marker holding 8, the
4-character name, a 4-byte marker holding `nbytes + 8`, a 4-byte marker
holding 8, a 4-byte marker holding `nbytes`, the payload, and a trailing
4-byte marker holding `nbytes` — a total of `24 + payload-length` bytes with
nothing else interleaved. -/
theorem c2_block_framing (bd : BlockData) (dt : Option Char) (name : String)
    (hn : name.toList.length = 4) (hnb : nbytesOf name bd + 8 < 2 ^ 31) :
    write_block bd dt name =
      (packLE 4 8 ++ nameBytes name
        ++ (packLE 4 (nbytesOf name bd + 8) ++ packLE 4 8 ++ packLE 4 (nbytesOf name bd))
        ++ payloadBytes bd ++ packLE 4 (nbytesOf name bd), none)
    ∧ (write_block bd dt name).1.length = 24 + (payloadBytes bd).length := by
  have he := write_block_eq bd dt name hn hnb
  refine ⟨he, ?_⟩
  rw [he]
  simp only [List.length_append, packLE_length, nameBytes_length, hn]
  omega

/-- C2 witness: framing of a 2-element `POS ` block. -/
theorem c2_block_framing_witness :
    write_block (.elems [5, 6]) (some 'f') "POS " =
      (packLE 4 8 ++ nameBytes "POS "
        ++ (packLE 4 (nbytesOf "POS " (.elems [5, 6]) + 8) ++ packLE 4 8
          ++ packLE 4 (nbytesOf "POS " (.elems [5, 6])))
        ++ payloadBytes (.elems [5, 6]) ++ packLE 4 (nbytesOf "POS " (.elems [5, 6])), none)
    ∧ (write_block (.elems [5, 6]) (some 'f') "POS ").1.length =
        24 + (payloadBytes (.elems [5, 6])).length :=
  c2_block_framing (.elems [5, 6]) (some 'f') "POS " (by decide) (by decide)

/-- C3: the declared block size `nbytes` is 256 for `HEAD` and
`4 * element_count` for every other block; the opening and closing size
markers hold the same value `nbytes`; and the payload written between them is
exactly `nbytes` bytes long.  The hypotheses record how the program calls
`write_block`: raw byte payloads only for `HEAD`, whose payload (the encoded
header) is 256 bytes. -/
theorem c3_declared_sizes (bd : BlockData) (dt : Option Char) (name : String)
    (hn : name.toList.length = 4) (hnb : nbytesOf name bd + 8 < 2 ^ 31)
    (hhead : name = "HEAD" → (payloadBytes bd).length = 256)
    (hraw : ∀ bs, bd = .raw bs → name = "HEAD") :
    ∃ n, write_block bd dt name =
        (packLE 4 8 ++ nameBytes name ++ (packLE 4 (n + 8) ++ packLE 4 8 ++ packLE 4 n)
          ++ payloadBytes bd ++ packLE 4 n, none)
      ∧ n = (if name = "HEAD" then 256 else 4 * blockDataLen bd)
      ∧ (payloadBytes bd).length = n := by
  refine ⟨nbytesOf name bd, write_block_eq bd dt name hn hnb, rfl, ?_⟩
  by_cases hh : name = "HEAD"
  · rw [nbytesOf, if_pos hh, hhead hh]
  · rw [nbytesOf, if_neg hh]
    cases bd with
    | raw bs => exact absurd (hraw bs rfl) hh
    | elems vals => rw [payloadBytes_elems_length, blockDataLen]

/-- C3 witness: a 3-element `VEL ` block declares and writes 12 payload
bytes. -/
theorem c3_declared_sizes_witness :
    ∃ n, write_block (.elems [7, 8, 9]) (some 'f') "VEL " =
        (packLE 4 8 ++ nameBytes "VEL " ++ (packLE 4 (n + 8) ++ packLE 4 8 ++ packLE 4 n)
          ++ payloadBytes (.elems [7, 8, 9]) ++ packLE 4 n, none)
      ∧ n = (if "VEL " = "HEAD" then 256 else 4 * blockDataLen (.elems [7, 8, 9]))
      ∧ (payloadBytes (.elems [7, 8, 9])).length = n :=
  c3_declared_sizes (.elems [7, 8, 9]) (some 'f') "VEL " (by decide) (by decide)
    (by decide) (by intro bs h; cases h)

/-- C5: every multi-byte numeric field the serialization layer writes is
little-endian.  Each of the three encoders emits the least significant byte
first: byte `i` of a packed field holds `value / 256^i % 256`, and reading
the bytes back least-significant-first recovers the value.  This covers the
header's 32-bit ints and 64-bit doubles (`packHVal`), the 4-byte size markers
(`write_dummy` packs via `packHVal (.i v)`), and the 4-byte block elements
(`payloadBytes`).  (The pattern of a packed `i` field is the two's-complement
residue `v % 2^32`.) -/
theorem c5_little_endian :
    (∀ (v : Int) (bs : List Nat), packHVal (.i v) = .ok bs →
        bs.length = 4 ∧ (bytesToNatLE bs : Int) = v % 2 ^ 32
          ∧ ∀ i, i < 4 → bs.getD i 0 = (v % (2 ^ 32 : Int)).toNat / 256 ^ i % 256)
    ∧ (∀ bits : Nat, bits < 2 ^ 64 → ∀ bs, packHVal (.d bits) = .ok bs →
        bs.length = 8 ∧ bytesToNatLE bs = bits
          ∧ ∀ i, i < 8 → bs.getD i 0 = bits / 256 ^ i % 256)
    ∧ (∀ e : Nat, (payloadBytes (.elems [e])).length = 4
        ∧ bytesToNatLE (payloadBytes (.elems [e])) = e % 2 ^ 32
        ∧ ∀ i, i < 4 → (payloadBytes (.elems [e])).getD i 0 = e % 2 ^ 32 / 256 ^ i % 256) := by
  refine ⟨?_, ?_, ?_⟩
  · intro v bs hbs
    have hrange : ¬(v < -(2 ^ 31) ∨ (2 ^ 31 : Int) ≤ v) := by
      by_contra hc
      rw [packHVal] at hbs
      rw [if_pos hc] at hbs
      cases hbs
    have hb : bs = packLE 4 (v % (2 ^ 32 : Int)).toNat := by
      rw [packHVal, if_neg hrange] at hbs
      cases hbs
      rfl
    have hlt : (v % (2 ^ 32 : Int)).toNat < 2 ^ 32 := by omega
    refine ⟨hb ▸ packLE_length 4 _, ?_, ?_⟩
    · rw [hb, bytesToNatLE_packLE]
      have : (v % (2 ^ 32 : Int)).toNat % 256 ^ 4 = (v % (2 ^ 32 : Int)).toNat :=
        Nat.mod_eq_of_lt (by norm_num at hlt ⊢; omega)
      rw [this]
      omega
    · intro i hi
      rw [hb, packLE_getD 4 _ i hi]
  · intro bits hlt bs hbs
    have hb : bs = packLE 8 bits := by
      rw [packHVal] at hbs
      cases hbs
      rfl
    refine ⟨hb ▸ packLE_length 8 _, ?_, ?_⟩
    · rw [hb, bytesToNatLE_packLE]
      exact Nat.mod_eq_of_lt (by norm_num at hlt ⊢; omega)
    · intro i hi
      rw [hb, packLE_getD 8 _ i hi]
  · intro e
    have hb : payloadBytes (.elems [e]) = packLE 4 (e % 2 ^ 32) := by
      simp [payloadBytes]
    have hlt : e % 2 ^ 32 < 2 ^ 32 := Nat.mod_lt _ (by norm_num)
    refine ⟨hb ▸ packLE_length 4 _, ?_, ?_⟩
    · rw [hb, bytesToNatLE_packLE]
      exact Nat.mod_eq_of_lt (by norm_num at hlt ⊢; omega)
    · intro i hi
      rw [hb, packLE_getD 4 _ i hi]

/-- C5 witness: the int 258 packs to `[2, 1, 0, 0]`, whose little-endian
reading is 258 and whose byte 1 is `258 / 256 % 256 = 1`. -/
theorem c5_little_endian_witness :
    ([2, 1, 0, 0] : List Nat).length = 4
      ∧ (bytesToNatLE [2, 1, 0, 0] : Int) = (258 : Int) % 2 ^ 32
      ∧ ∀ i, i < 4 →
          ([2, 1, 0, 0] : List Nat).getD i 0 =
            ((258 : Int) % (2 ^ 32 : Int)).toNat / 256 ^ i % 256 :=
  c5_little_endian.1 258 [2, 1, 0, 0] (by rfl)

/-!
Snapshot writer: embedding of `write_snapshot` (src/utils.py lines 245-305).

The source first partitions `data_list` by position (`N_gas = n_part[0]`,
positions, velocities, IDs, masses, then — only when `N_gas > 0` — internal
energies, densities and smoothing lengths, and `Z = data_list[7]` when the
list has more than 7 entries); any missing entry raises `IndexError` before
the output file is opened.  Only then is the format checked: `gadget2`
encodes the header and writes the block sequence, anything else raises
`ValueError`.  The result pairs the bytes appended to the sink with the
error raised, if any.
-/

/-- Python list indexing `l[i]` for a non-negative literal index: raises
`IndexError` when out of range. -/
def pyGet {α : Type} (l : List α) (i : Nat) : Except PyError α :=
  if h : i < l.length then .ok (l.get ⟨i, h⟩) else .error (.indexError i)

/-- The variables `write_snapshot` binds while partitioning `data_list`
(src/utils.py lines 267-281). -/
structure PartData where
  nGas : Int
  pos : List Nat
  vel : List Nat
  ids : List Nat
  mass : List Nat
  gas : Option (List Nat × List Nat × List Nat)
  z : Option (List Nat)
  deriving DecidableEq, Repr

/-- Embedding of the data-partitioning phase of `write_snapshot`
(src/utils.py lines 267-281): fetch `n_part[0]` and the four mandatory
arrays, the three gas arrays only when the gas count is positive, and the
metallicity array only when more than 7 arrays were supplied. -/
def partitionData (nPart : List Int) (dataList : List (List Nat)) :
    Except PyError PartData := do
  let nGas ← pyGet nPart 0
  let pos ← pyGet dataList 0
  let vel ← pyGet dataList 1
  let ids ← pyGet dataList 2
  let mass ← pyGet dataList 3
  let gas ←
    if 0 < nGas then do
      let u ← pyGet dataList 4
      let rho ← pyGet dataList 5
      let sm ← pyGet dataList 6
      pure (some (u, rho, sm))
    else pure none
  let z := if h : 7 < dataList.length then some (dataList.get ⟨7, h⟩) else none
  pure ⟨nGas, pos, vel, ids, mass, gas, z⟩

/-- The sequence of `write_block` calls `write_snapshot` makes for the
`gadget2` format (src/utils.py lines 289-301), given the partitioned data
and the encoded header. -/
def blockSpecs (pd : PartData) (hdr : List Nat) :
    List (BlockData × Option Char × String) :=
  [(.raw hdr, none, "HEAD"), (.elems pd.pos, some 'f', "POS "),
    (.elems pd.vel, some 'f', "VEL "), (.elems pd.ids, some 'i', "ID  "),
    (.elems pd.mass, some 'f', "MASS")]
  ++ match pd.gas with
     | some (u, rho, sm) =>
       (BlockData.elems u, some 'f', "U   ") ::
         ((match pd.z with
           | some zd => [(BlockData.elems zd, some 'f', "Z   ")]
           | none => [])
          ++ [(BlockData.elems rho, some 'f', "RHO "), (BlockData.elems sm, some 'f', "HSML")])
     | none => []

/-- Run a sequence of `write_block` calls against the sink, stopping at the
first raised error and keeping the bytes written up to that point. -/
def runBlocks : List (BlockData × Option Char × String) → List Nat × Option PyError
  | [] => ([], none)
  | (bd, dt, name) :: rest =>
    let r := write_block bd dt name
    match r.2 with
    | some e => (r.1, some e)
    | none =>
      let rs := runBlocks rest
      (r.1 ++ rs.1, rs.2)

/-- Embedding of `write_snapshot`: partition the data (raising `IndexError`
for missing arrays, before the sink is opened), then dispatch on the format:
`gadget2` encodes the header and writes the block sequence, any other format
raises `ValueError` with nothing written. -/
def write_snapshot (nPart : List Int) (dataList : List (List Nat))
    (fileFormat : String) : List Nat × Option PyError :=
  match partitionData nPart dataList with
  | .error e => ([], some e)
  | .ok pd =>
    if fileFormat = "gadget2" then
      match read_header nPart with
      | .error e => ([], some e)
      | .ok hdr => runBlocks (blockSpecs pd hdr)
    else ([], some (.valueError fileFormat))

theorem exceptBind_ok {α β : Type} (a : α) (f : α → Except PyError β) :
    (Except.ok a >>= f) = f a := rfl

theorem exceptBind_error {α β : Type} (e : PyError) (f : α → Except PyError β) :
    ((Except.error e : Except PyError α) >>= f) = .error e := rfl

theorem excPure {α : Type} (a : α) : (pure a : Except PyError α) = .ok a := rfl

theorem pyGet_ok (l : List (List Nat)) (i : Nat) (h : i < l.length) :
    pyGet l i = .ok (l.getD i []) := by
  rw [pyGet, dif_pos h, List.getD_eq_getElem _ _ h]
  rfl

/-- Successful partitioning: with the four mandatory arrays present (and the
three gas arrays present whenever the gas count is positive), every fetch
succeeds and the partition is determined by positional lookup. -/
theorem partitionData_ok (g : Int) (np : List Int) (dl : List (List Nat))
    (h4 : 4 ≤ dl.length) (hgas : 0 < g → 7 ≤ dl.length) :
    partitionData (g :: np) dl = .ok
      { nGas := g
        pos := dl.getD 0 []
        vel := dl.getD 1 []
        ids := dl.getD 2 []
        mass := dl.getD 3 []
        gas := if 0 < g then some (dl.getD 4 [], dl.getD 5 [], dl.getD 6 []) else none
        z := if 7 < dl.length then some (dl.getD 7 []) else none } := by
  have h0 : pyGet (g :: np) 0 = .ok g := by rw [pyGet, dif_pos (by simp)]; rfl
  simp only [partitionData, h0, exceptBind_ok,
    pyGet_ok dl 0 (by omega), pyGet_ok dl 1 (by omega),
    pyGet_ok dl 2 (by omega), pyGet_ok dl 3 (by omega)]
  by_cases hgpos : 0 < g
  · simp only [if_pos hgpos, hgas hgpos, pyGet_ok dl 4 (by have := hgas hgpos; omega),
      pyGet_ok dl 5 (by have := hgas hgpos; omega),
      pyGet_ok dl 6 (by have := hgas hgpos; omega), exceptBind_ok, excPure]
    by_cases h7 : 7 < dl.length
    · rw [dif_pos h7, if_pos h7, List.getD_eq_getElem _ _ h7]
      rfl
    · rw [dif_neg h7, if_neg h7]
  · simp only [if_neg hgpos, excPure, exceptBind_ok]
    by_cases h7 : 7 < dl.length
    · rw [dif_pos h7, if_pos h7, List.getD_eq_getElem _ _ h7]
      rfl
    · rw [dif_neg h7, if_neg h7]

/-- Failing partitioning: with a positive gas count and fewer than 7 data
arrays, the first out-of-range positional fetch is at index
`dataList.length`, and it raises `IndexError` there. -/
theorem partitionData_short (g : Int) (np : List Int) (dl : List (List Nat))
    (hg : 0 < g) (hlen : dl.length < 7) :
    partitionData (g :: np) dl = .error (.indexError dl.length) := by
  have h0 : pyGet (g :: np) 0 = .ok g := by rw [pyGet, dif_pos (by simp)]; rfl
  rcases dl with _ | ⟨a, _ | ⟨b, _ | ⟨c, _ | ⟨d, _ | ⟨e, _ | ⟨f, _ | ⟨x, rest⟩⟩⟩⟩⟩⟩⟩
  · simp [partitionData, h0, pyGet, exceptBind_ok, exceptBind_error]
  · simp [partitionData, h0, pyGet, exceptBind_ok, exceptBind_error]
  · simp [partitionData, h0, pyGet, exceptBind_ok, exceptBind_error]
  · simp [partitionData, h0, pyGet, exceptBind_ok, exceptBind_error]
  · simp [partitionData, h0, pyGet, exceptBind_ok, exceptBind_error, hg]
  · simp [partitionData, h0, pyGet, exceptBind_ok, exceptBind_error, hg]
  · simp [partitionData, h0, pyGet, exceptBind_ok, exceptBind_error, hg]
  · simp only [List.length_cons] at hlen
    omega

/-- C1: for a 6-element particle-count sequence, the supported format and
enough supplied arrays, the blocks `write_snapshot` emits to the sink are
exactly, in order: `HEAD`, `POS `, `VEL `, `ID  `, `MASS`, then — only when
the gas count is strictly positive — `U   `, then `Z   ` only when a
metallicity array was supplied (more than 7 data arrays), then `RHO ` and
`HSML`; when the gas count is not positive none of the gas blocks appear,
whether or not those arrays were supplied. -/
theorem c1_block_sequence (g : Int) (np : List Int) (dl : List (List Nat))
    (hdr : List Nat) (h6 : (g :: np).length = 6) (h4 : 4 ≤ dl.length)
    (hgas : 0 < g → 7 ≤ dl.length) :
    ∃ pd, partitionData (g :: np) dl = .ok pd
      ∧ (read_header (g :: np) = .ok hdr →
          write_snapshot (g :: np) dl "gadget2" = runBlocks (blockSpecs pd hdr))
      ∧ (blockSpecs pd hdr).map (fun b => b.2.2) =
          ["HEAD", "POS ", "VEL ", "ID  ", "MASS"]
            ++ (if 0 < g then
                  ["U   "] ++ (if 7 < dl.length then ["Z   "] else [])
                    ++ ["RHO ", "HSML"]
                else []) := by
  refine ⟨_, partitionData_ok g np dl h4 hgas, ?_, ?_⟩
  · intro hh
    unfold write_snapshot
    simp [partitionData_ok g np dl h4 hgas, hh]
  · by_cases hgpos : 0 < g
    · by_cases h7 : 7 < dl.length
      · simp [blockSpecs, hgpos, h7]
      · simp [blockSpecs, hgpos, h7]
    · simp [blockSpecs, hgpos]

/-- C1 witness: one gas particle, seven supplied arrays, no metallicity:
the emitted block names are `HEAD POS VEL ID MASS U RHO HSML`. -/
theorem c1_block_sequence_witness :
    ∃ pd, partitionData [1, 0, 0, 0, 0, 0] [[], [], [], [], [], [], []] = .ok pd
      ∧ (read_header [1, 0, 0, 0, 0, 0] = .ok [] →
          write_snapshot [1, 0, 0, 0, 0, 0] [[], [], [], [], [], [], []] "gadget2" =
            runBlocks (blockSpecs pd []))
      ∧ (blockSpecs pd []).map (fun b => b.2.2) =
          ["HEAD", "POS ", "VEL ", "ID  ", "MASS"]
            ++ (if (0 : Int) < 1 then
                  ["U   "]
                    ++ (if 7 < ([[], [], [], [], [], [], []] : List (List Nat)).length then
                          ["Z   "] else [])
                    ++ ["RHO ", "HSML"]
                else []) :=
  c1_block_sequence 1 [0, 0, 0, 0, 0] [[], [], [], [], [], [], []] []
    (by decide) (by decide) (by decide)

/-- C6: whenever the gas count is strictly positive but the data list has
fewer than 7 entries (so the internal-energy, density or smoothing-length
array is absent), `write_snapshot` raises the `IndexError` of the first
missing array — the concrete form of `MissingGasArrays` — during
partitioning, before the output file is opened, so zero bytes reach the
sink; this holds for every requested format. -/
theorem c6_missing_gas_arrays (g : Int) (np : List Int) (dl : List (List Nat))
    (fmt : String) (hg : 0 < g) (hlen : dl.length < 7) :
    write_snapshot (g :: np) dl fmt = ([], some (.indexError dl.length)) := by
  unfold write_snapshot
  rw [partitionData_short g np dl hg hlen]

/-- C6 witness: ten gas particles, only the four mandatory arrays supplied:
the write fails at index 4 with nothing written. -/
theorem c6_missing_gas_arrays_witness :
    write_snapshot [10, 0, 0, 0, 0, 0] [[], [], [], []] "gadget2" =
      ([], some (.indexError 4)) :=
  c6_missing_gas_arrays 10 [0, 0, 0, 0, 0] [[], [], [], []] "gadget2"
    (by decide) (by decide)

/-- C7 counterexample: the claim fails as stated: with an unsupported format
but an empty data list, `write_snapshot` raises the partitioning
`IndexError`, not the `ValueError` (`UnsupportedFormat`), because the source
partitions `data_list` before checking `file_format`. -/
theorem c7_counterexample :
    write_snapshot [1, 0, 0, 0, 0, 0] [] "hdf5" = ([], some (.indexError 0))
      ∧ PyError.indexError 0 ≠ PyError.valueError "hdf5" := by
  constructor
  · rfl
  · intro h
    cases h

/-- C7 (amended): for every format identifier other than `gadget2`,
`write_snapshot` fails with the `ValueError` (`UnsupportedFormat`) and writes
nothing, provided the data list survives partitioning: at least the four
mandatory arrays, and the gas arrays whenever the gas count is positive. -/
theorem c7_unsupported_format (g : Int) (np : List Int) (dl : List (List Nat))
    (fmt : String) (hf : fmt ≠ "gadget2") (h4 : 4 ≤ dl.length)
    (hgas : 0 < g → 7 ≤ dl.length) :
    write_snapshot (g :: np) dl fmt = ([], some (.valueError fmt)) := by
  unfold write_snapshot
  simp [partitionData_ok g np dl h4 hgas, hf]

/-- C7 witness: format `hdf5` with complete mandatory arrays and no gas is
rejected with the `ValueError`. -/
theorem c7_unsupported_format_witness :
    write_snapshot [0, 0, 0, 0, 0, 0] [[], [], [], []] "hdf5" =
      ([], some (.valueError "hdf5")) :=
  c7_unsupported_format 0 [0, 0, 0, 0, 0] [[], [], [], []] "hdf5"
    (by decide) (by decide) (by decide)

/-!
Configuration reader: embedding of `read_configuration_file`
(src/utils.py lines 313-355) and `header_typing` (lines 26-40), modelled
after `toml.load` has produced the document: a list of named sections, each
an insertion-ordered list of key/value pairs (Python dicts preserve
insertion order and TOML forbids duplicate keys).

The source locates the `HEADER` section (SyntaxError when absent), collects
the `header_typing` keys missing from it (SyntaxError when any are), and
then runs `for key, value in header:` — iterating the dictionary itself, not
`header.items()`.  Each iteration yields only the key string and unpacks it
into two variables, which raises `ValueError` unless the key has exactly two
characters; for a two-character key the lookup `header_typing[key]` of the
single-character `key` raises `KeyError`.  The function performs no writes:
every failure happens before any bytes are produced.
-/

/-- A parsed TOML value (only the shapes the header uses). -/
inductive TomlV where
  | vInt (n : Int)
  | vStr (s : String)
  | vList (l : List Int)
  deriving DecidableEq, Repr

/-- A parsed TOML document: named sections of key/value pairs, in insertion
order. -/
def TomlDoc : Type := List (String × List (String × TomlV))

/-- The keys of the `header_typing` dictionary (src/utils.py lines 26-40),
in declaration order. -/
def headerTypingKeys : List String :=
  ["mass_array", "time", "redshift", "flag_sfr", "flag_cooling",
    "flag_feedback", "num_files", "boxsize", "omega0", "omega_lambda",
    "hubble_param", "flag_age", "flag_metals"]

/-- The coercion loop `for key, value in header:` (src/utils.py lines
350-351).  Iterating a dict yields its keys; tuple-unpacking a key string
succeeds only when it has exactly two characters (binding `key` to the
first and `value` to the second), and then `header_typing[key]` looks up a
single-character key. -/
def coerceHeaderLoop : List String → Except PyError Unit
  | [] => .ok ()
  | k :: rest =>
    match k.toList with
    | [c₁, _] =>
      if headerTypingKeys.contains (String.mk [c₁]) then coerceHeaderLoop rest
      else .error .keyError
    | _ => .error .valueErrorUnpack

/-- Embedding of `read_configuration_file` after `toml.load`: find the
`HEADER` section, reject it when any `header_typing` key is missing, then
run the coercion loop over the header keys in order. -/
def read_configuration_file (doc : TomlDoc) : Except PyError Unit :=
  match List.lookup "HEADER" doc with
  | none => .error .errMissingHeaderSection
  | some header =>
    if (headerTypingKeys.filter fun k => (List.lookup k header).isNone).length ≠ 0 then
      .error .errMissingHeaderKeys
    else coerceHeaderLoop (header.map Prod.fst)

/-- A configuration document whose `HEADER` section carries every required
key with a plausibly-typed value. -/
def exampleConfigDoc : TomlDoc :=
  [("HEADER",
    [("mass_array", .vList [0, 0, 0, 0, 0, 0]), ("time", .vInt 0),
      ("redshift", .vInt 0), ("flag_sfr", .vInt 0), ("flag_cooling", .vInt 0),
      ("flag_feedback", .vInt 0), ("num_files", .vInt 1), ("boxsize", .vInt 0),
      ("omega0", .vInt 0), ("omega_lambda", .vInt 0), ("hubble_param", .vInt 1),
      ("flag_age", .vInt 0), ("flag_metals", .vInt 0)])]

/-- C9: the missing-key half of the claim holds (a document whose header
lacks required keys is rejected before anything is written), but the
coercion half fails on the code: even with every required key present, the
loop `for key, value in header:` iterates keys instead of items and raises
`ValueError: too many values to unpack` at the first key instead of coercing
any value. -/
theorem c9_header_coercion_raises :
    read_configuration_file exampleConfigDoc = .error .valueErrorUnpack
      ∧ read_configuration_file [("HEADER", [("time", .vInt 0)])] =
          .error .errMissingHeaderKeys := by
  constructor
  · rfl
  · rfl
